import Mathlib

/-!
Shallow embedding of the reth transaction-pool crate, covering
crates/transaction-pool/src/lib.rs and crates/transaction-pool/src/pool/mod.rs.

Transaction hashes, addresses and block hashes are modelled as natural
numbers.  The submission timestamp of a `ValidPoolTransaction` (a Rust
`Instant`) carries no information any verified property reads and is
omitted from the record.  Components of the crate whose source files are
not available here (the inner `TxPool` in pool/txpool.rs, the event
broadcaster in pool/listener.rs, the bounded tokio mpsc channels and the
config/traits modules) are modelled from the specification; the doc
comment of each such definition says so explicitly.
-/

namespace Reth

abbrev TxHash := Nat
abbrev Address := Nat

/-- Origin of a transaction, `TransactionOrigin` in {Local, External, Private}
(declared in traits.rs, re-exported by lib.rs). -/
inductive TransactionOrigin
  | Local
  | External
  | Private
deriving DecidableEq

/-- The accessors of the underlying pool transaction that the embedded code
reads (`PoolTransaction` in traits.rs): hash, sender, nonce, gas limit, fee
fields, value and encoded length. -/
structure Transaction where
  hash : TxHash
  sender : Address
  nonce : Nat
  gasLimit : Nat
  maxFeePerGas : Nat
  maxPriorityFeePerGas : Nat
  value : Nat
  encodedLength : Nat
deriving DecidableEq

/-- `TransactionId`: the pair of interned sender id and nonce
(identifier.rs). -/
structure TransactionId where
  sender : Nat
  nonce : Nat
deriving DecidableEq

/-- Constructor `TransactionId::new` (identifier.rs). -/
def TransactionId.new (sender nonce : Nat) : TransactionId := ⟨sender, nonce⟩

/-- `ValidPoolTransaction` (validate.rs): a validated transaction together
with pool-owned metadata.  The `timestamp` field (`Instant::now()`) is
omitted, see the module comment. -/
structure ValidPoolTransaction where
  transaction : Transaction
  transaction_id : TransactionId
  propagate : Bool
  origin : TransactionOrigin
  encoded_length : Nat
deriving DecidableEq

/-- `TransactionValidationOutcome` (validate.rs): the result the validator
returns for one transaction. -/
inductive TransactionValidationOutcome
  | Valid (balance : Nat) (state_nonce : Nat) (transaction : Transaction) (propagate : Bool)
  | Invalid (transaction : Transaction) (err : String)
  | Error (hash : TxHash) (err : String)
deriving DecidableEq

/-- `TransactionValidationOutcome::tx_hash` (validate.rs): the hash of the
transaction the outcome is about. -/
def TransactionValidationOutcome.tx_hash : TransactionValidationOutcome → TxHash
  | .Valid _ _ t _ => t.hash
  | .Invalid t _ => t.hash
  | .Error h _ => h

/-- The admission error kinds of error.rs that the embedded code
constructs or propagates. -/
inductive PoolError
  | InvalidTransaction (hash : TxHash) (err : String)
  | Other (hash : TxHash) (err : String)
  | DiscardedOnInsert (hash : TxHash)
  | NonceTooLow (hash : TxHash)
  | ReplacementUnderpriced (hash : TxHash)
  | AlreadyImported (hash : TxHash)
deriving DecidableEq

/-- The hash of the transaction a `PoolError` is about. -/
def PoolError.hash : PoolError → TxHash
  | .InvalidTransaction h _ => h
  | .Other h _ => h
  | .DiscardedOnInsert h => h
  | .NonceTooLow h => h
  | .ReplacementUnderpriced h => h
  | .AlreadyImported h => h

/-- `PoolResult<TxHash>`: one per-transaction admission result. -/
abbrev TxResult := Except PoolError TxHash

instance {ε α : Type} [DecidableEq ε] [DecidableEq α] : DecidableEq (Except ε α) :=
  fun a b =>
  match a, b with
  | Except.ok x, Except.ok y =>
      if h : x = y then isTrue (congrArg Except.ok h)
      else isFalse (fun hc => h (Except.ok.inj hc))
  | Except.error x, Except.error y =>
      if h : x = y then isTrue (congrArg Except.error h)
      else isFalse (fun hc => h (Except.error.inj hc))
  | Except.ok _, Except.error _ => isFalse (fun hc => Except.noConfusion hc)
  | Except.error _, Except.ok _ => isFalse (fun hc => Except.noConfusion hc)

/-- `Result::is_ok` on a per-transaction admission result. -/
def isOkResult : TxResult → Bool
  | .ok _ => true
  | .error _ => false

/-- The hash carried by a per-transaction admission result. -/
def resultHash : TxResult → TxHash
  | .ok h => h
  | .error e => e.hash

/-- `SubPool` (pool/state.rs): the three sub-pools. -/
inductive SubPool
  | Pending
  | BaseFee
  | Queued
deriving DecidableEq

/-- Modelled from the spec: an entry of the event stream produced by the
`PoolEventBroadcast` of pool/listener.rs (that file is not among the
sources).  The broadcaster is modelled as an append-only log of the events
the code in pool/mod.rs fires: `pending`, `queued`, `mined`, `replaced`,
`discarded` and `propagated`, each tagged with the transaction hash. -/
inductive FullTransactionEvent
  | pending (hash : TxHash) (replaced : Option TxHash)
  | queued (hash : TxHash)
  | mined (hash : TxHash) (blockHash : Nat)
  | replaced (oldHash : TxHash) (newHash : TxHash)
  | discarded (hash : TxHash)
  | propagated (hash : TxHash)
deriving DecidableEq

/-- Whether an event is a `queued` event. -/
def FullTransactionEvent.isQueuedEvent : FullTransactionEvent → Bool
  | .queued _ => true
  | _ => false

/-- Modelled from the spec: the error of a non-blocking send on a bounded
tokio mpsc channel (`TrySendError`), either full or closed. -/
inductive TrySendError
  | full
  | closed
deriving DecidableEq

/-- Modelled from the spec: a bounded tokio mpsc channel as seen from the
sender side: the buffered items, the capacity, and whether the receiver
half was dropped. -/
structure BoundedChannel (α : Type) where
  buffer : List α
  capacity : Nat
  closed : Bool
deriving DecidableEq

/-- Modelled from the spec: `Sender::try_send`.  A send on a closed channel
fails with `closed`; a send on a full open channel fails with `full`;
otherwise the item is appended to the buffer.  No variant blocks. -/
def BoundedChannel.try_send (c : BoundedChannel α) (v : α) :
    Except TrySendError (BoundedChannel α) :=
  if c.closed then .error .closed
  else if c.capacity ≤ c.buffer.length then .error .full
  else .ok { c with buffer := c.buffer ++ [v] }

/-- Modelled from the spec: `Sender::is_closed`. -/
def BoundedChannel.is_closed (c : BoundedChannel α) : Bool := c.closed

/-- `PendingTransactionListenerKind` (traits.rs, not among the sources;
modelled from the spec): either all pending transactions or only those
allowed to propagate. -/
inductive PendingTransactionListenerKind
  | All
  | PropagateOnly
deriving DecidableEq

/-- `PendingTransactionListenerKind::is_propagate_only`. -/
def PendingTransactionListenerKind.is_propagate_only :
    PendingTransactionListenerKind → Bool
  | .All => false
  | .PropagateOnly => true

/-- `PendingTransactionListener` (pool/mod.rs lines 586-592): a channel
sender plus the listener kind. -/
structure PendingTransactionListener where
  sender : BoundedChannel TxHash
  kind : PendingTransactionListenerKind
deriving DecidableEq

/-- `NewTransactionEvent` (traits.rs): the sub-pool a newly added
transaction landed in plus the transaction. -/
structure NewTransactionEvent where
  subpool : SubPool
  transaction : ValidPoolTransaction
deriving DecidableEq

/-- `SenderInfo` (pool/txpool.rs): on-chain nonce and balance of a
sender. -/
structure SenderInfo where
  state_nonce : Nat
  balance : Nat
deriving DecidableEq

/-- `SubPoolLimit` (config.rs, not among the sources; modelled from the
spec): maximum transaction count and maximum total bytes of a sub-pool. -/
structure SubPoolLimit where
  max_txs : Nat
  max_size : Nat
deriving DecidableEq

/-- `PoolConfig` (config.rs, not among the sources; modelled from the
spec): the per-sub-pool limits and the per-sender slot cap. -/
structure PoolConfig where
  pending_limit : SubPoolLimit
  basefee_limit : SubPoolLimit
  queued_limit : SubPoolLimit
  max_account_slots : Nat
deriving DecidableEq

/-- `BlockInfo` (traits.rs): last seen block and the pending base fee. -/
structure BlockInfo where
  last_seen_block_hash : Nat
  last_seen_block_number : Nat
  pending_basefee : Nat
deriving DecidableEq

/-- `ChangedAccount` (traits.rs): a state change of one account. -/
structure ChangedAccount where
  address : Address
  nonce : Nat
  balance : Nat
deriving DecidableEq

/-- `CanonicalStateUpdate` (traits.rs): everything a newly canonical block
changes. -/
structure CanonicalStateUpdate where
  hash : Nat
  number : Nat
  pending_block_base_fee : Nat
  changed_accounts : List ChangedAccount
  mined_transactions : List TxHash
  timestamp : Nat
deriving DecidableEq

-- Constants of lib.rs lines 193-212.

/-- `TX_SLOT_SIZE` (lib.rs line 197): `32 * 1024`. -/
def TX_SLOT_SIZE : Nat := 32 * 1024

/-- `TX_MAX_SIZE` (lib.rs line 203): `4 * TX_SLOT_SIZE`. -/
def TX_MAX_SIZE : Nat := 4 * TX_SLOT_SIZE

/-- `MAX_CODE_SIZE` (lib.rs line 206): `24576`. -/
def MAX_CODE_SIZE : Nat := 24576

/-- `MAX_INIT_CODE_SIZE` (lib.rs line 209): `2 * MAX_CODE_SIZE`. -/
def MAX_INIT_CODE_SIZE : Nat := 2 * MAX_CODE_SIZE

/-- `PRICE_BUMP` (lib.rs line 212): `10` percent. -/
def PRICE_BUMP : Nat := 10

/-- Modelled from the spec: the state of the inner `TxPool` of
pool/txpool.rs (that file is not among the sources).  It holds the master
index of resident transactions together with their current sub-pool
assignment, the per-sender on-chain info, the tracked block info and the
pool configuration. -/
structure TxPool where
  all : List (ValidPoolTransaction × SubPool)
  senders : List (Nat × SenderInfo)
  block_info : BlockInfo
  config : PoolConfig
deriving DecidableEq

/-- All resident transactions in master-index iteration order
(`AllTransactions::transactions_iter`). -/
def TxPool.transactions_list (st : TxPool) : List ValidPoolTransaction :=
  st.all.map (fun p => p.1)

/-- Sender info of an interned sender id, defaulting to a fresh account. -/
def TxPool.sender_info (st : TxPool) (sid : Nat) : SenderInfo :=
  match st.senders.find? (fun p => decide (p.1 = sid)) with
  | some p => p.2
  | none => ⟨0, 0⟩

/-- Overwrite-or-append update of the sender-info table. -/
def setSenderEntry (s : List (Nat × SenderInfo)) (sid : Nat) (info : SenderInfo) :
    List (Nat × SenderInfo) :=
  if s.any (fun p => decide (p.1 = sid)) then
    s.map (fun p => if p.1 = sid then (sid, info) else p)
  else s ++ [(sid, info)]

/-- Modelled from the spec: whether a resident transaction of the given
sender with the given nonce exists. -/
def TxPool.resident_nonce (st : TxPool) (sid n : Nat) : Bool :=
  st.all.any (fun p =>
    decide (p.1.transaction_id.sender = sid ∧ p.1.transaction_id.nonce = n))

/-- Modelled from the spec, section 4.4 step 1: a transaction has a nonce
gap when some nonce in `[state_nonce, nonce)` of its sender is not
resident. -/
def TxPool.has_gap (st : TxPool) (t : ValidPoolTransaction) : Bool :=
  let sn := (st.sender_info t.transaction_id.sender).state_nonce
  (List.range (t.transaction.nonce - sn)).any
    (fun i => !(st.resident_nonce t.transaction_id.sender (sn + i)))

/-- Cost of one transaction: `gas_limit * max_fee_per_gas + value`
(spec section 4.4). -/
def txCost (t : ValidPoolTransaction) : Nat :=
  t.transaction.gasLimit * t.transaction.maxFeePerGas + t.transaction.value

/-- Modelled from the spec, section 4.4: cumulative cost of the resident
transactions of a sender up to and including the given nonce. -/
def TxPool.cumulative_cost (st : TxPool) (t : ValidPoolTransaction) : Nat :=
  ((st.all.filter (fun p =>
      decide (p.1.transaction_id.sender = t.transaction_id.sender ∧
        p.1.transaction.nonce ≤ t.transaction.nonce))).map
    (fun p => txCost p.1)).foldl (· + ·) 0

/-- Modelled from the spec, section 4.4: the classification rule.  Gap or
insufficient funds park in Queued; a fee cap below the pending base fee
parks in BaseFee; otherwise the transaction is Pending. -/
def TxPool.classify (st : TxPool) (t : ValidPoolTransaction) : SubPool :=
  if st.has_gap t then SubPool.Queued
  else if (st.sender_info t.transaction_id.sender).balance < st.cumulative_cost t then
    SubPool.Queued
  else if t.transaction.maxFeePerGas < st.block_info.pending_basefee then SubPool.BaseFee
  else SubPool.Pending

/-- Modelled from the spec: recompute the sub-pool assignment of every
resident transaction against the current state. -/
def TxPool.reclassify (st : TxPool) : TxPool :=
  { st with all := st.all.map (fun p => (p.1, st.classify p.1)) }

/-- Hashes of the transactions currently assigned to the Pending
sub-pool. -/
def TxPool.pending_hashes (st : TxPool) : List TxHash :=
  (st.all.filter (fun p => decide (p.2 = SubPool.Pending))).map
    (fun p => p.1.transaction.hash)

/-- Sub-pool of the resident transaction with the given hash, when one
exists. -/
def TxPool.subpool_of (st : TxPool) (h : TxHash) : Option SubPool :=
  (st.all.find? (fun p => decide (p.1.transaction.hash = h))).map (fun p => p.2)

/-- `AddedPendingTransaction` (pool/mod.rs lines 595-605). -/
structure AddedPendingTransaction where
  transaction : ValidPoolTransaction
  replaced : Option ValidPoolTransaction
  promoted : List TxHash
  discarded : List TxHash
deriving DecidableEq

/-- `AddedTransaction` (pool/mod.rs lines 607-622). -/
inductive AddedTransaction
  | Pending (tx : AddedPendingTransaction)
  | Parked (transaction : ValidPoolTransaction) (replaced : Option ValidPoolTransaction)
      (subpool : SubPool)
deriving DecidableEq

/-- `AddedTransaction::is_pending` (pool/mod.rs lines 626-628). -/
def AddedTransaction.is_pending : AddedTransaction → Bool
  | .Pending _ => true
  | .Parked _ _ _ => false

/-- `AddedTransaction::hash` (pool/mod.rs lines 631-636). -/
def AddedTransaction.hash : AddedTransaction → TxHash
  | .Pending tx => tx.transaction.transaction.hash
  | .Parked transaction _ _ => transaction.transaction.hash

/-- `AddedTransaction::is_propagate_allowed` (pool/mod.rs lines 638-643). -/
def AddedTransaction.is_propagate_allowed : AddedTransaction → Bool
  | .Pending tx => tx.transaction.propagate
  | .Parked transaction _ _ => transaction.propagate

/-- `AddedTransaction::into_new_transaction_event`
(pool/mod.rs lines 646-655). -/
def AddedTransaction.into_new_transaction_event : AddedTransaction → NewTransactionEvent
  | .Pending tx => ⟨SubPool.Pending, tx.transaction⟩
  | .Parked transaction _ subpool => ⟨subpool, transaction⟩

/-- Modelled from the spec, section 4.5 step 5: insert a transaction into
the master index (removing the transaction it replaces, if any),
reclassify, and report the admission as `Pending` or `Parked` together
with the same-sender transactions the insertion promoted into Pending. -/
def TxPool.insert_tx (st : TxPool) (tx : ValidPoolTransaction)
    (replacedTx : Option ValidPoolTransaction) : TxPool × AddedTransaction :=
  let prevPending := st.pending_hashes
  let removed := match replacedTx with
    | some old => st.all.filter
        (fun p => !(decide (p.1.transaction.hash = old.transaction.hash)))
    | none => st.all
  let st1 : TxPool := { st with all := removed ++ [(tx, SubPool.Queued)] }
  let st2 := st1.reclassify
  let sub := match st2.subpool_of tx.transaction.hash with
    | some s => s
    | none => SubPool.Queued
  let promoted := ((st2.all.filter (fun p =>
      decide (p.2 = SubPool.Pending ∧ p.1.transaction.hash ≠ tx.transaction.hash ∧
        ¬ p.1.transaction.hash ∈ prevPending))).map (fun p => p.1.transaction.hash))
  if sub = SubPool.Pending then
    (st2, AddedTransaction.Pending ⟨tx, replacedTx, promoted, []⟩)
  else (st2, AddedTransaction.Parked tx replacedTx sub)

/-- Modelled from the spec: `TxPool::add_transaction` of pool/txpool.rs
(not among the sources), spec section 4.5.  Records the sender's on-chain
info reported by the validator, rejects an already-imported hash, rejects
a nonce below the on-chain nonce, enforces the `PRICE_BUMP` replacement
rule on an identical `TransactionId`, and otherwise inserts and
classifies.  The per-sender slot cap of spec step 4 is not modelled; no
claim depends on it. -/
def TxPool.add_transaction (st : TxPool) (tx : ValidPoolTransaction)
    (balance state_nonce : Nat) : Except PoolError (TxPool × AddedTransaction) :=
  let h := tx.transaction.hash
  if st.all.any (fun p => decide (p.1.transaction.hash = h)) then
    .error (.AlreadyImported h)
  else if tx.transaction.nonce < state_nonce then .error (.NonceTooLow h)
  else
    let st1 : TxPool :=
      { st with senders :=
          setSenderEntry st.senders tx.transaction_id.sender ⟨state_nonce, balance⟩ }
    match st1.all.find? (fun p => decide (p.1.transaction_id = tx.transaction_id)) with
    | some p =>
        if 100 * tx.transaction.maxFeePerGas ≥
              (100 + PRICE_BUMP) * p.1.transaction.maxFeePerGas ∧
            100 * tx.transaction.maxPriorityFeePerGas ≥
              (100 + PRICE_BUMP) * p.1.transaction.maxPriorityFeePerGas then
          .ok (st1.insert_tx tx (some p.1))
        else .error (.ReplacementUnderpriced h)
    | none => .ok (st1.insert_tx tx none)

/-- The transactions currently assigned to the given sub-pool. -/
def TxPool.subpool_txs (st : TxPool) (sp : SubPool) : List ValidPoolTransaction :=
  (st.all.filter (fun p => decide (p.2 = sp))).map (fun p => p.1)

/-- The configured limit of a sub-pool. -/
def PoolConfig.limit_of (cfg : PoolConfig) : SubPool → SubPoolLimit
  | SubPool.Pending => cfg.pending_limit
  | SubPool.BaseFee => cfg.basefee_limit
  | SubPool.Queued => cfg.queued_limit

/-- Whether a sub-pool currently exceeds its count or byte limit. -/
def TxPool.over_limit (st : TxPool) (sp : SubPool) : Bool :=
  let txs := st.subpool_txs sp
  let lim := st.config.limit_of sp
  decide (lim.max_txs < txs.length) ||
    decide (lim.max_size < (txs.map (fun t => t.encoded_length)).foldl (· + ·) 0)

/-- First sub-pool over its limit, checked in Pending, BaseFee, Queued
order. -/
def TxPool.find_over_limit (st : TxPool) : Option SubPool :=
  if st.over_limit SubPool.Pending then some SubPool.Pending
  else if st.over_limit SubPool.BaseFee then some SubPool.BaseFee
  else if st.over_limit SubPool.Queued then some SubPool.Queued
  else none

/-- Lexicographic order on (sender id, nonce). -/
def idLexLt (a b : ValidPoolTransaction) : Bool :=
  decide (a.transaction_id.sender < b.transaction_id.sender) ||
    (decide (a.transaction_id.sender = b.transaction_id.sender) &&
      decide (a.transaction_id.nonce < b.transaction_id.nonce))

/-- Effective tip given a base fee (spec glossary). -/
def effectiveTip (basefee : Nat) (t : ValidPoolTransaction) : Nat :=
  min t.transaction.maxPriorityFeePerGas (t.transaction.maxFeePerGas - basefee)

/-- Modelled from the spec, section 4.3: whether `a` is a worse eviction
candidate than `b` within the given sub-pool: lower effective tip for
Pending, lower fee cap for BaseFee, higher id for Queued; ties broken by
higher id. -/
def worseThan (basefee : Nat) (sp : SubPool) (a b : ValidPoolTransaction) : Bool :=
  match sp with
  | SubPool.Pending =>
      decide (effectiveTip basefee a < effectiveTip basefee b) ||
        (decide (effectiveTip basefee a = effectiveTip basefee b) && idLexLt b a)
  | SubPool.BaseFee =>
      decide (a.transaction.maxFeePerGas < b.transaction.maxFeePerGas) ||
        (decide (a.transaction.maxFeePerGas = b.transaction.maxFeePerGas) && idLexLt b a)
  | SubPool.Queued => idLexLt b a

/-- The worst eviction candidate of a list under `worseThan`. -/
def pickWorst (basefee : Nat) (sp : SubPool) (l : List ValidPoolTransaction) :
    Option ValidPoolTransaction :=
  l.foldl (fun acc t =>
    match acc with
    | none => some t
    | some w => if worseThan basefee sp t w then some t else some w) none

/-- Remove the resident transaction with the given hash. -/
def TxPool.remove_hash (st : TxPool) (h : TxHash) : TxPool :=
  { st with all := st.all.filter (fun p => !(decide (p.1.transaction.hash = h))) }

/-- Modelled from the spec, section 4.5 Eviction: while some sub-pool is
over a limit, pop its worst resident, reclassify the survivors (removed
predecessors open gaps), and accumulate the evicted transactions.  The
fuel argument bounds the loop by the resident count. -/
def discardWorstLoop : Nat → TxPool → List ValidPoolTransaction →
    TxPool × List ValidPoolTransaction
  | 0, st, acc => (st, acc)
  | fuel + 1, st, acc =>
    match st.find_over_limit with
    | none => (st, acc)
    | some sp =>
      match pickWorst st.block_info.pending_basefee sp (st.subpool_txs sp) with
      | none => (st, acc)
      | some w =>
          discardWorstLoop fuel (st.remove_hash w.transaction.hash).reclassify
            (acc ++ [w])

/-- Modelled from the spec: `TxPool::discard_worst` of pool/txpool.rs (not
among the sources): enforce the sub-pool size limits and return the
evicted transactions. -/
def TxPool.discard_worst (st : TxPool) : TxPool × List ValidPoolTransaction :=
  discardWorstLoop st.all.length st []

/-- `OnNewCanonicalStateOutcome` (pool/mod.rs lines 658-669). -/
structure OnNewCanonicalStateOutcome where
  block_hash : Nat
  mined : List TxHash
  promoted : List TxHash
  discarded : List TxHash
deriving DecidableEq

/-- Modelled from the spec: `TxPool::on_canonical_state_change` of
pool/txpool.rs (not among the sources), spec section 4.5: remove the
mined hashes, apply the changed accounts, drop residents whose nonce fell
below the new on-chain nonce, adopt the new block info, reclassify, and
report the mined, promoted and dropped hashes. -/
def TxPool.on_canonical_state_change (st : TxPool) (bi : BlockInfo)
    (mined : List TxHash) (changed : List (Nat × SenderInfo)) :
    TxPool × OnNewCanonicalStateOutcome :=
  let prevPending := st.pending_hashes
  let all1 := st.all.filter (fun p => !(mined.contains p.1.transaction.hash))
  let senders1 := changed.foldl (fun s c => setSenderEntry s c.1 c.2) st.senders
  let st1 : TxPool := { st with all := all1, senders := senders1, block_info := bi }
  let dropped := (st1.all.filter (fun p =>
      decide (p.1.transaction.nonce <
        (st1.sender_info p.1.transaction_id.sender).state_nonce))).map
    (fun p => p.1.transaction.hash)
  let st2 : TxPool :=
    { st1 with all := st1.all.filter (fun p => !(dropped.contains p.1.transaction.hash)) }
  let st3 := st2.reclassify
  let promoted := st3.pending_hashes.filter (fun h => !(prevPending.contains h))
  (st3, ⟨bi.last_seen_block_hash, mined, promoted, dropped⟩)

/-- Modelled from the spec: `TxPool::get` by hash. -/
def TxPool.get (st : TxPool) (h : TxHash) : Option ValidPoolTransaction :=
  (st.all.find? (fun p => decide (p.1.transaction.hash = h))).map (fun p => p.1)

/-- `PoolInner` (pool/mod.rs lines 110-126): the interned sender
addresses, the inner pool, the event broadcaster (modelled as a log, see
`FullTransactionEvent`) and the two broadcast listener registries.  The
validator is not part of the state; the facade passes it as a function. -/
structure PoolInner where
  identifiers : List Address
  pool : TxPool
  event_listener : List FullTransactionEvent
  pending_transaction_listener : List PendingTransactionListener
  transaction_listener : List (BoundedChannel NewTransactionEvent)
deriving DecidableEq

/-- `SenderIdentifiers::sender_id_or_create` (identifier.rs, not among the
sources; modelled from the spec, section 4.1): return the existing dense
id of an address or append it with the next id. -/
def senderIdOrCreate (ids : List Address) (a : Address) : List Address × Nat :=
  match ids.findIdx? (fun x => decide (x = a)) with
  | some i => (ids, i)
  | none => (ids ++ [a], ids.length)

/-- `PoolInner::get_sender_id` (pool/mod.rs lines 163-165). -/
def PoolInner.get_sender_id (st : PoolInner) (addr : Address) : PoolInner × Nat :=
  let r := senderIdOrCreate st.identifiers addr
  ({ st with identifiers := r.1 }, r.2)

/-- One step of `PoolInner::changed_senders`: intern one changed account
and append its id paired with the new sender info. -/
def changedSendersStep (r : PoolInner × List (Nat × SenderInfo)) (acc : ChangedAccount) :
    PoolInner × List (Nat × SenderInfo) :=
  let s := r.1.get_sender_id acc.address
  (s.1, r.2 ++ [(s.2, SenderInfo.mk acc.nonce acc.balance)])

/-- `PoolInner::changed_senders` (pool/mod.rs lines 174-186): intern every
changed account and pair its id with the new sender info. -/
def PoolInner.changed_senders (st : PoolInner) (accs : List ChangedAccount) :
    PoolInner × List (Nat × SenderInfo) :=
  accs.foldl changedSendersStep (st, [])

/-- The per-listener step of `PoolInner::on_new_pending_transaction`
(pool/mod.rs lines 399-421), the closure passed to `retain_mut`: a
propagate-only listener skips a non-propagatable transaction and stays
registered unless its channel is closed; otherwise the hash is try-sent,
a full channel keeps the listener and drops the event, a closed channel
unregisters it. -/
def stepPendingListener (tx_hash : TxHash) (propagate_allowed : Bool)
    (l : PendingTransactionListener) : Option PendingTransactionListener :=
  if l.kind.is_propagate_only && !propagate_allowed then
    if l.sender.is_closed then none else some l
  else
    match l.sender.try_send tx_hash with
    | .ok c => some { l with sender := c }
    | .error .full => some l
    | .error .closed => none

/-- `PoolInner::on_new_pending_transaction` (pool/mod.rs lines 393-422). -/
def PoolInner.on_new_pending_transaction (st : PoolInner)
    (pending : AddedTransaction) : PoolInner :=
  let step := stepPendingListener pending.hash pending.is_propagate_allowed
  { st with pending_transaction_listener :=
      st.pending_transaction_listener.filterMap step }

/-- The per-listener step of `PoolInner::on_new_transaction`
(pool/mod.rs lines 428-441), the closure passed to `retain_mut`. -/
def stepTxListener (event : NewTransactionEvent)
    (l : BoundedChannel NewTransactionEvent) :
    Option (BoundedChannel NewTransactionEvent) :=
  match l.try_send event with
  | .ok c => some c
  | .error .full => some l
  | .error .closed => none

/-- `PoolInner::on_new_transaction` (pool/mod.rs lines 424-442). -/
def PoolInner.on_new_transaction (st : PoolInner) (event : NewTransactionEvent) :
    PoolInner :=
  { st with transaction_listener :=
      st.transaction_listener.filterMap (stepTxListener event) }

/-- `PoolInner::notify_event_listeners` (pool/mod.rs lines 456-474): a
pending admission fires `pending` for the new transaction, `pending` for
each promoted hash and `discarded` for each discarded hash; a parked
admission fires `queued` and, when it replaced a transaction,
`replaced`. -/
def PoolInner.notify_event_listeners (st : PoolInner) (tx : AddedTransaction) :
    PoolInner :=
  match tx with
  | AddedTransaction.Pending t =>
      { st with event_listener := st.event_listener ++
          ([FullTransactionEvent.pending t.transaction.transaction.hash
              (t.replaced.map (fun r => r.transaction.hash))] ++
            t.promoted.map (fun h => FullTransactionEvent.pending h none) ++
            t.discarded.map FullTransactionEvent.discarded) }
  | AddedTransaction.Parked transaction replaced _ =>
      { st with event_listener := st.event_listener ++
          ([FullTransactionEvent.queued transaction.transaction.hash] ++
            (match replaced with
             | some r => [FullTransactionEvent.replaced r.transaction.hash
                 transaction.transaction.hash]
             | none => [])) }

/-- `PoolInner::add_transaction` (pool/mod.rs lines 296-348): a `Valid`
outcome is wrapped into a `ValidPoolTransaction` and handed to the inner
pool — an inner error propagates via `?` without touching any listener —
and a successful admission notifies the pending-hash listeners (when
pending), the event listeners and the new-transaction listeners.  An
`Invalid` or `Error` outcome fires `discarded` and returns the error. -/
def PoolInner.add_transaction (st : PoolInner) (origin : TransactionOrigin)
    (tx : TransactionValidationOutcome) : PoolInner × TxResult :=
  match tx with
  | TransactionValidationOutcome.Valid balance state_nonce transaction propagate =>
      let s := st.get_sender_id transaction.sender
      let transaction_id := TransactionId.new s.2 transaction.nonce
      let encoded_length := transaction.encodedLength
      let vtx : ValidPoolTransaction :=
        ⟨transaction, transaction_id, propagate, origin, encoded_length⟩
      match s.1.pool.add_transaction vtx balance state_nonce with
      | .error e => (s.1, .error e)
      | .ok r =>
          let hash := r.2.hash
          let st1 : PoolInner := { s.1 with pool := r.1 }
          let st2 := if r.2.is_pending then st1.on_new_pending_transaction r.2 else st1
          let st3 := st2.notify_event_listeners r.2
          let st4 := st3.on_new_transaction r.2.into_new_transaction_event
          (st4, .ok hash)
  | TransactionValidationOutcome.Invalid t err =>
      ({ st with event_listener :=
          st.event_listener ++ [FullTransactionEvent.discarded t.hash] },
        .error (.InvalidTransaction t.hash err))
  | TransactionValidationOutcome.Error tx_hash err =>
      ({ st with event_listener :=
          st.event_listener ++ [FullTransactionEvent.discarded tx_hash] },
        .error (.Other tx_hash err))

/-- `PoolInner::discard_worst` (pool/mod.rs lines 575-577): run the inner
eviction and return the evicted hashes (a `HashSet` in the source,
modelled as a list with membership). -/
def PoolInner.discard_worst (st : PoolInner) : PoolInner × List TxHash :=
  let d := st.pool.discard_worst
  ({ st with pool := d.1 }, d.2.map (fun t => t.transaction.hash))

/-- The sequential mapping of `PoolInner::add_transaction` over a batch,
the `transactions.into_iter().map(..).collect()` of pool/mod.rs lines
369-370; each call sees the state the previous one left. -/
def PoolInner.add_each (origin : TransactionOrigin) :
    PoolInner → List TransactionValidationOutcome → PoolInner × List TxResult
  | st, [] => (st, [])
  | st, t :: ts =>
    let r := PoolInner.add_transaction st origin t
    let rest := PoolInner.add_each origin r.1 ts
    (rest.1, r.2 :: rest.2)

/-- The per-result adjustment of pool/mod.rs lines 382-390: an `Ok` hash
that the post-batch eviction discarded becomes `DiscardedOnInsert`. -/
def applyDiscard (discarded : List TxHash) (r : TxResult) : TxResult :=
  match r with
  | .ok h => if discarded.contains h then .error (.DiscardedOnInsert h) else .ok h
  | .error e => .error e

/-- The tail of `PoolInner::add_transactions` after the per-transaction
adds (pool/mod.rs lines 372-390), with the discarded-hash set exposed as
the third component: eviction runs exactly when some add succeeded, and
when it discarded nothing the results are returned unchanged. -/
def mkBatchResult (added : PoolInner × List TxResult) :
    PoolInner × List TxResult × List TxHash :=
  if added.2.any isOkResult then
    let d := PoolInner.discard_worst added.1
    match d.2 with
    | [] => (d.1, added.2, [])
    | _ :: _ => (d.1, added.2.map (applyDiscard d.2), d.2)
  else (added.1, added.2, [])

/-- `PoolInner::add_transactions` (pool/mod.rs lines 363-391) together
with the internal discarded-hash set. -/
def PoolInner.add_transactions_full (st : PoolInner) (origin : TransactionOrigin)
    (transactions : List TransactionValidationOutcome) :
    PoolInner × List TxResult × List TxHash :=
  mkBatchResult (PoolInner.add_each origin st transactions)

/-- `PoolInner::add_transactions` (pool/mod.rs lines 363-391). -/
def PoolInner.add_transactions (st : PoolInner) (origin : TransactionOrigin)
    (transactions : List TransactionValidationOutcome) :
    PoolInner × List TxResult :=
  let r := st.add_transactions_full origin transactions
  (r.1, r.2.1)

/-- `PoolInner::notify_on_new_state` (pool/mod.rs lines 445-453): fire
`mined` for every mined hash, `pending` for every promoted hash and
`discarded` for every discarded hash of the outcome — and nothing else. -/
def PoolInner.notify_on_new_state (st : PoolInner)
    (outcome : OnNewCanonicalStateOutcome) : PoolInner :=
  { st with event_listener := st.event_listener ++
      (outcome.mined.map (fun h => FullTransactionEvent.mined h outcome.block_hash) ++
        outcome.promoted.map (fun h => FullTransactionEvent.pending h none) ++
        outcome.discarded.map FullTransactionEvent.discarded) }

/-- `PoolInner::on_canonical_state_change` (pool/mod.rs lines 255-278):
intern the changed accounts, build the new block info, run the inner
update and notify. -/
def PoolInner.on_canonical_state_change (st : PoolInner)
    (update : CanonicalStateUpdate) : PoolInner :=
  let cs := st.changed_senders update.changed_accounts
  let bi : BlockInfo := ⟨update.hash, update.number, update.pending_block_base_fee⟩
  let r := cs.1.pool.on_canonical_state_change bi update.mined_transactions cs.2
  PoolInner.notify_on_new_state { cs.1 with pool := r.1 } r.2

/-- The inner outcome `PoolInner::on_canonical_state_change` notifies
with. -/
def PoolInner.canon_outcome (st : PoolInner) (update : CanonicalStateUpdate) :
    OnNewCanonicalStateOutcome :=
  let cs := st.changed_senders update.changed_accounts
  let bi : BlockInfo := ⟨update.hash, update.number, update.pending_block_base_fee⟩
  (cs.1.pool.on_canonical_state_change bi update.mined_transactions cs.2).2

/-- `PoolInner::pooled_transactions` (pool/mod.rs lines 249-252): the
resident transactions whose `propagate` flag is set, in master-index
order. -/
def PoolInner.pooled_transactions (st : PoolInner) : List ValidPoolTransaction :=
  st.pool.transactions_list.filter (fun t => t.propagate)

/-- `PoolInner::pooled_transactions_hashes` (pool/mod.rs lines 243-246). -/
def PoolInner.pooled_transactions_hashes (st : PoolInner) : List TxHash :=
  (st.pool.transactions_list.filter (fun t => t.propagate)).map
    (fun t => t.transaction.hash)

/-- `PoolInner::get` (pool/mod.rs lines 531-536). -/
def PoolInner.get (st : PoolInner) (tx_hash : TxHash) : Option ValidPoolTransaction :=
  st.pool.get tx_hash

-- The `Pool` facade of lib.rs.  The validator (an external collaborator)
-- is a function argument; validation is pure here, so the suspension of
-- the Rust future is not modelled.

/-- A validator as the facade consumes it. -/
abbrev Validator := TransactionOrigin → Transaction → TransactionValidationOutcome

/-- `Pool::validate` (lib.rs lines 260-270): pair the hash, taken from the
transaction before validation, with the validator's outcome. -/
def Pool.validate (validator : Validator) (origin : TransactionOrigin)
    (transaction : Transaction) : TxHash × TransactionValidationOutcome :=
  (transaction.hash, validator origin transaction)

/-- One insertion into the hash map `Pool::validate_all` collects into:
a repeated key overwrites the stored outcome in place. -/
def insertOutcome :
    List (TxHash × TransactionValidationOutcome) →
      TxHash × TransactionValidationOutcome →
      List (TxHash × TransactionValidationOutcome)
  | [], kv => [kv]
  | (k, v) :: rest, kv =>
      if k = kv.1 then (k, kv.2) :: rest else (k, v) :: insertOutcome rest kv

/-- `Pool::validate_all` (lib.rs lines 243-257): validate every
transaction and collect the `(hash, outcome)` pairs into a
`HashMap<TxHash, _>`, whose values the caller then iterates.  Collecting
into the map collapses duplicate hashes to a single entry; the map's
iteration order is unspecified in Rust and is modelled here as the
first-insertion order of each key. -/
def Pool.validate_all (validator : Validator) (origin : TransactionOrigin)
    (transactions : List Transaction) : List TransactionValidationOutcome :=
  (((transactions.map (Pool.validate validator origin)).foldl insertOutcome []).map
    (fun p => p.2))

/-- `Pool::add_transactions` (lib.rs lines 348-357): validate all, then
hand the map's values to `PoolInner::add_transactions`.  The surrounding
`PoolResult` is always `Ok` and is dropped here. -/
def Pool.add_transactions (validator : Validator) (st : PoolInner)
    (origin : TransactionOrigin) (transactions : List Transaction) :
    PoolInner × List TxResult :=
  PoolInner.add_transactions st origin (Pool.validate_all validator origin transactions)

/-- `Pool::add_transaction` (lib.rs lines 339-346): validate the single
transaction, call `PoolInner::add_transactions` on the singleton iterator
and pop the last (sole) result; `expect` on the never-empty vector is
modelled with a default. -/
def Pool.add_transaction (validator : Validator) (st : PoolInner)
    (origin : TransactionOrigin) (transaction : Transaction) :
    PoolInner × TxResult :=
  let v := Pool.validate validator origin transaction
  let r := PoolInner.add_transactions st origin [v.2]
  (r.1, r.2.getLastD (.error (.Other transaction.hash "empty")))

/-- `Pool::pooled_transaction_hashes_max` (lib.rs lines 379-381): the
first `max` pooled hashes. -/
def Pool.pooled_transaction_hashes_max (st : PoolInner) (max : Nat) : List TxHash :=
  (PoolInner.pooled_transactions_hashes st).take max

-- Concrete fixtures used by the witnesses and counterexamples below.

/-- A configuration with room for everything. -/
def wideConfig : PoolConfig := ⟨⟨100, 100000⟩, ⟨100, 100000⟩, ⟨100, 100000⟩, 16⟩

/-- A configuration whose Pending sub-pool holds no transaction at all. -/
def tightConfig : PoolConfig := ⟨⟨0, 100000⟩, ⟨100, 100000⟩, ⟨100, 100000⟩, 16⟩

/-- An empty pool under `wideConfig`. -/
def emptyPool : PoolInner := ⟨[], ⟨[], [], ⟨0, 0, 0⟩, wideConfig⟩, [], [], []⟩

/-- An empty pool under `tightConfig`. -/
def tightPool : PoolInner := ⟨[], ⟨[], [], ⟨0, 0, 0⟩, tightConfig⟩, [], [], []⟩

/-- A validator that rejects everything with an `Error` outcome. -/
def errValidator : Validator := fun _ t => TransactionValidationOutcome.Error t.hash "rejected"

/-- A transaction with hash 7 from address 100 at nonce 3. -/
def cexTx : Transaction := ⟨7, 100, 3, 1, 1, 1, 0, 1⟩

/-- A `Valid` outcome whose nonce 3 lies below the reported on-chain
nonce 5. -/
def nonceOutcome : TransactionValidationOutcome :=
  TransactionValidationOutcome.Valid 1000 5 cexTx true

/-- A transaction with hash 7 at nonce 0 costing 50 wei. -/
def c3Tx : Transaction := ⟨7, 100, 0, 10, 5, 1, 0, 1⟩

/-- `c3Tx` as a resident pool transaction of sender id 0. -/
def c3Vtx : ValidPoolTransaction := ⟨c3Tx, ⟨0, 0⟩, true, TransactionOrigin.Local, 1⟩

/-- A pool holding `c3Vtx` in Pending, its sender funded with 1000 wei. -/
def c3Pool : PoolInner :=
  ⟨[100], ⟨[(c3Vtx, SubPool.Pending)], [(0, ⟨0, 1000⟩)], ⟨0, 0, 0⟩, wideConfig⟩, [], [], []⟩

/-- A canonical update that empties the sender's balance and mines
nothing. -/
def c3Update : CanonicalStateUpdate := ⟨1, 1, 0, [⟨100, 0, 0⟩], [], 0⟩

/-- A `Valid` outcome that lands in Pending under `tightPool`. -/
def c4Outcome : TransactionValidationOutcome :=
  TransactionValidationOutcome.Valid 1000 0 ⟨9, 100, 0, 1, 5, 1, 0, 1⟩ true

/-- An `Invalid` outcome for `cexTx`. -/
def invalidOutcome : TransactionValidationOutcome :=
  TransactionValidationOutcome.Invalid cexTx "bad"

/-- A full open hash channel of capacity 2. -/
def fullChan : BoundedChannel TxHash := ⟨[1, 2], 2, false⟩

/-- A closed hash channel. -/
def closedChan : BoundedChannel TxHash := ⟨[], 2, true⟩

/-- An open hash channel with room. -/
def roomChan : BoundedChannel TxHash := ⟨[], 2, false⟩

/-- A pending-hash listener of the non-filtering kind on a full channel. -/
def fullListener : PendingTransactionListener :=
  ⟨fullChan, PendingTransactionListenerKind.All⟩

/-- A pending-hash listener of the non-filtering kind on a closed
channel. -/
def closedListener : PendingTransactionListener :=
  ⟨closedChan, PendingTransactionListenerKind.All⟩

/-- A propagate-only pending-hash listener on an open channel with
room. -/
def propOnlyListener : PendingTransactionListener :=
  ⟨roomChan, PendingTransactionListenerKind.PropagateOnly⟩

/-- A non-filtering pending-hash listener on an open channel with room. -/
def roomListener : PendingTransactionListener :=
  ⟨roomChan, PendingTransactionListenerKind.All⟩

/-- A full open new-transaction channel of capacity 1. -/
def fullEventChan : BoundedChannel NewTransactionEvent :=
  ⟨[⟨SubPool.Pending, c3Vtx⟩], 1, false⟩

/-- A closed new-transaction channel. -/
def closedEventChan : BoundedChannel NewTransactionEvent := ⟨[], 1, true⟩

/-- A new-transaction event used to exercise the listener registry. -/
def someEvent : NewTransactionEvent := ⟨SubPool.Pending, c3Vtx⟩

/-- A propagate-true resident transaction with hash 11. -/
def vtx11 : ValidPoolTransaction :=
  ⟨⟨11, 100, 0, 1, 5, 1, 0, 1⟩, ⟨0, 0⟩, true, TransactionOrigin.Local, 1⟩

/-- A propagate-false resident transaction with hash 12. -/
def vtx12 : ValidPoolTransaction :=
  ⟨⟨12, 101, 0, 1, 5, 1, 0, 1⟩, ⟨1, 0⟩, false, TransactionOrigin.Private, 1⟩

/-- A pool holding `vtx11` and `vtx12`. -/
def c10Pool : PoolInner :=
  ⟨[100, 101],
    ⟨[(vtx11, SubPool.Pending), (vtx12, SubPool.Pending)],
      [(0, ⟨0, 1000⟩), (1, ⟨0, 1000⟩)], ⟨0, 0, 0⟩, wideConfig⟩, [], [], []⟩



-- Helper lemmas shared by several claims.

theorem insert_tx_hash (st : TxPool) (tx : ValidPoolTransaction)
    (rep : Option ValidPoolTransaction) :
    (st.insert_tx tx rep).2.hash = tx.transaction.hash := by
  simp only [TxPool.insert_tx]
  split <;> rfl

theorem txpool_add_ok_hash (st : TxPool) (tx : ValidPoolTransaction) (b n : Nat)
    (r : TxPool × AddedTransaction) (h : st.add_transaction tx b n = Except.ok r) :
    r.2.hash = tx.transaction.hash := by
  simp only [TxPool.add_transaction] at h
  split at h
  · simp at h
  · split at h
    · simp at h
    · split at h
      · split at h
        · exact (Except.ok.inj h) ▸ insert_tx_hash _ _ _
        · simp at h
      · exact (Except.ok.inj h) ▸ insert_tx_hash _ _ _

theorem txpool_add_err_hash (st : TxPool) (tx : ValidPoolTransaction) (b n : Nat)
    (e : PoolError) (h : st.add_transaction tx b n = Except.error e) :
    e.hash = tx.transaction.hash := by
  simp only [TxPool.add_transaction] at h
  split at h
  · rw [← Except.error.inj h]; rfl
  · split at h
    · rw [← Except.error.inj h]; rfl
    · split at h
      · split at h
        · simp at h
        · rw [← Except.error.inj h]; rfl
      · simp at h

theorem resultHash_add (st : PoolInner) (origin : TransactionOrigin)
    (t : TransactionValidationOutcome) :
    resultHash (PoolInner.add_transaction st origin t).2 = t.tx_hash := by
  cases t with
  | Invalid tr err => rfl
  | Error th err => rfl
  | Valid b n tr p =>
      simp only [PoolInner.add_transaction, TransactionValidationOutcome.tx_hash]
      split
      · rename_i e heq
        simp only [resultHash]
        exact txpool_add_err_hash _ _ _ _ _ heq
      · rename_i r heq
        simp only [resultHash]
        exact txpool_add_ok_hash _ _ _ _ _ heq

theorem resultHash_applyDiscard (d : List TxHash) (r : TxResult) :
    resultHash (applyDiscard d r) = resultHash r := by
  cases r with
  | ok h =>
      simp only [applyDiscard]
      split <;> rfl
  | error e => rfl

theorem map_resultHash_applyDiscard (d : List TxHash) (l : List TxResult) :
    (l.map (applyDiscard d)).map resultHash = l.map resultHash := by
  induction l with
  | nil => rfl
  | cons r rest ih => simp [resultHash_applyDiscard, ih]

theorem add_each_map_hash (origin : TransactionOrigin) (st : PoolInner)
    (txs : List TransactionValidationOutcome) :
    (PoolInner.add_each origin st txs).2.map resultHash =
      txs.map TransactionValidationOutcome.tx_hash := by
  induction txs generalizing st with
  | nil => rfl
  | cons t ts ih =>
      simp only [PoolInner.add_each, List.map_cons]
      rw [resultHash_add, ih]

theorem add_transactions_map_hash (st : PoolInner) (origin : TransactionOrigin)
    (txs : List TransactionValidationOutcome) :
    (PoolInner.add_transactions st origin txs).2.map resultHash =
      txs.map TransactionValidationOutcome.tx_hash := by
  simp only [PoolInner.add_transactions, PoolInner.add_transactions_full, mkBatchResult]
  split
  · split
    · exact add_each_map_hash origin st txs
    · rw [map_resultHash_applyDiscard]
      exact add_each_map_hash origin st txs
  · exact add_each_map_hash origin st txs

theorem add_transactions_length (st : PoolInner) (origin : TransactionOrigin)
    (txs : List TransactionValidationOutcome) :
    (PoolInner.add_transactions st origin txs).2.length = txs.length := by
  have h := congrArg List.length (add_transactions_map_hash st origin txs)
  simpa using h


theorem any_isOk_of_getD_ok (l : List TxResult) (i : Nat) (h : TxHash)
    (hget : l.getD i (Except.error (PoolError.Other 0 "")) = Except.ok h) :
    l.any isOkResult = true := by
  induction l generalizing i with
  | nil => simp [List.getD] at hget
  | cons r rest ih =>
      cases i with
      | zero =>
          cases r with
          | ok x => simp [isOkResult]
          | error e => simp [List.getD] at hget
      | succ j =>
          have := ih j (by simpa [List.getD] using hget)
          simp [List.any_cons, this]

theorem getD_map_applyDiscard (d : List TxHash) (l : List TxResult) (i : Nat) :
    (l.map (applyDiscard d)).getD i (Except.error (PoolError.Other 0 "")) =
      applyDiscard d (l.getD i (Except.error (PoolError.Other 0 ""))) := by
  induction l generalizing i with
  | nil => simp [List.getD, applyDiscard]
  | cons r rest ih =>
      cases i with
      | zero => simp [List.getD]
      | succ j => simpa [List.getD] using ih j

theorem foldl_changedSendersStep_event (accs : List ChangedAccount) :
    ∀ (r : PoolInner × List (Nat × SenderInfo)),
      (accs.foldl changedSendersStep r).1.event_listener = r.1.event_listener := by
  induction accs with
  | nil => intro r; rfl
  | cons a as ih =>
      intro r
      rw [List.foldl_cons]
      exact ih _

theorem find_by_hash_unique (l : List (ValidPoolTransaction × SubPool))
    (tx : ValidPoolTransaction)
    (hnd : (l.map (fun p => p.1.transaction.hash)).Nodup)
    (hmem : tx ∈ l.map (fun p => p.1)) :
    (l.find? (fun p => decide (p.1.transaction.hash = tx.transaction.hash))).map
        (fun p => p.1) = some tx := by
  induction l with
  | nil => simp at hmem
  | cons p rest ih =>
      simp only [List.map_cons, List.nodup_cons] at hnd
      rcases List.mem_cons.mp hmem with heq | hmem2
      · rw [List.find?_cons_of_pos]
        · simp [heq]
        · simp [heq]
      · have hne : p.1.transaction.hash ≠ tx.transaction.hash := by
          intro hcontra
          apply hnd.1
          rw [hcontra]
          have : tx ∈ rest.map (fun q => q.1) := hmem2
          rcases List.mem_map.mp this with ⟨q, hq, rfl⟩
          exact List.mem_map.mpr ⟨q, hq, rfl⟩
        rw [List.find?_cons_of_neg]
        · exact ih hnd.2 hmem2
        · simp [hne]


-- Claim theorems.

/-- Claim C8: the compiled constants of lib.rs equal the spec's fixed
values: `TX_SLOT_SIZE` is 32768 bytes, `TX_MAX_SIZE` is four slots,
131072 bytes, `MAX_CODE_SIZE` is 24576, `MAX_INIT_CODE_SIZE` is twice
that, 49152, and the replacement price bump `PRICE_BUMP` is 10 percent. -/
theorem C8_constants :
    TX_SLOT_SIZE = 32768 ∧ TX_MAX_SIZE = 4 * TX_SLOT_SIZE ∧ TX_MAX_SIZE = 131072 ∧
      MAX_CODE_SIZE = 24576 ∧ MAX_INIT_CODE_SIZE = 2 * MAX_CODE_SIZE ∧
      MAX_INIT_CODE_SIZE = 49152 ∧ PRICE_BUMP = 10 := by
  decide

/-- Claim C1 (amended): `PoolInner::add_transactions` returns one result
per input outcome, in input order — the result list has the arity of the
input and the result at position i carries the hash of the transaction at
position i, so no rejected transaction aborts the rest of the batch.  The
facade `Pool::add_transactions` does not preserve arity, see the
counterexample. -/
theorem C1_batch_results_per_transaction (st : PoolInner) (origin : TransactionOrigin)
    (txs : List TransactionValidationOutcome) :
    (PoolInner.add_transactions st origin txs).2.length = txs.length ∧
      (PoolInner.add_transactions st origin txs).2.map resultHash =
        txs.map TransactionValidationOutcome.tx_hash :=
  ⟨add_transactions_length st origin txs, add_transactions_map_hash st origin txs⟩

/-- Claim C1 counterexample: `Pool::add_transactions` collects the
validation outcomes into a `HashMap` keyed by transaction hash, so a batch
of two transactions with the same hash produces a single result — the
result list does not have the arity of the input list. -/
theorem C1_counterexample :
    (Pool.add_transactions errValidator emptyPool TransactionOrigin.Local
        [cexTx, cexTx]).2.length = 1 ∧
      ([cexTx, cexTx] : List Transaction).length = 2 := by
  decide

/-- Claim C2 (amended): when `PoolInner::add_transaction` returns an
error, a terminal `discarded` event was appended exactly for a validator
`Invalid` or `Error` outcome; a pool-level rejection of a `Valid` outcome
(`NonceTooLow`, `ReplacementUnderpriced`, `AlreadyImported`) propagates
the error without emitting any event. -/
theorem C2_terminal_event_on_validator_reject (st : PoolInner)
    (origin : TransactionOrigin) (out : TransactionValidationOutcome) (e : PoolError)
    (h : (PoolInner.add_transaction st origin out).2 = Except.error e) :
    (PoolInner.add_transaction st origin out).1.event_listener =
      st.event_listener ++
        (match out with
         | TransactionValidationOutcome.Invalid t _ =>
             [FullTransactionEvent.discarded t.hash]
         | TransactionValidationOutcome.Error th _ =>
             [FullTransactionEvent.discarded th]
         | TransactionValidationOutcome.Valid _ _ _ _ => []) := by
  cases out with
  | Invalid tr err => rfl
  | Error th err => rfl
  | Valid b n tr p =>
      simp only [PoolInner.add_transaction] at h ⊢
      split at h
      · simp [PoolInner.get_sender_id]
      · simp at h

/-- Claim C2 witness: an `Invalid` outcome on the empty pool is rejected
and fires exactly one `discarded` event for its hash. -/
theorem C2_witness :
    (PoolInner.add_transaction emptyPool TransactionOrigin.Local invalidOutcome).1.event_listener =
      emptyPool.event_listener ++ [FullTransactionEvent.discarded 7] := by
  have h := C2_terminal_event_on_validator_reject emptyPool TransactionOrigin.Local
    invalidOutcome (PoolError.InvalidTransaction 7 "bad") (by decide)
  simpa [invalidOutcome, cexTx] using h

/-- Claim C2 counterexample: a `Valid` outcome whose nonce lies below the
on-chain nonce is rejected with `NonceTooLow`, yet no event at all — in
particular no `discarded` event — is emitted before the call returns. -/
theorem C2_counterexample :
    (PoolInner.add_transaction emptyPool TransactionOrigin.Local nonceOutcome).2 =
        Except.error (PoolError.NonceTooLow 7) ∧
      (PoolInner.add_transaction emptyPool TransactionOrigin.Local
        nonceOutcome).1.event_listener = [] := by
  decide


/-- Claim C3 (amended): after `PoolInner::on_canonical_state_change`, the
events emitted are exactly a `mined(hash, block_hash)` event per mined
hash of the update, a `pending(hash)` event per promoted transaction of
the inner outcome and a `discarded` event per transaction dropped by the
update — and the emitted events contain no `queued` event: a transition
into Queued (or BaseFee) emits nothing. -/
theorem C3_canonical_state_events (st : PoolInner) (update : CanonicalStateUpdate) :
    (PoolInner.on_canonical_state_change st update).event_listener =
      st.event_listener ++
        (update.mined_transactions.map
            (fun h => FullTransactionEvent.mined h update.hash) ++
          (st.canon_outcome update).promoted.map
            (fun h => FullTransactionEvent.pending h none) ++
          (st.canon_outcome update).discarded.map FullTransactionEvent.discarded) ∧
      ((PoolInner.on_canonical_state_change st update).event_listener.drop
        st.event_listener.length).all (fun e => !e.isQueuedEvent) = true := by
  have hev := foldl_changedSendersStep_event update.changed_accounts
    (st, ([] : List (Nat × SenderInfo)))
  have h1 : (PoolInner.on_canonical_state_change st update).event_listener =
      st.event_listener ++
        (update.mined_transactions.map
            (fun h => FullTransactionEvent.mined h update.hash) ++
          (st.canon_outcome update).promoted.map
            (fun h => FullTransactionEvent.pending h none) ++
          (st.canon_outcome update).discarded.map FullTransactionEvent.discarded) := by
    simp only [PoolInner.on_canonical_state_change, PoolInner.canon_outcome,
      PoolInner.changed_senders, PoolInner.notify_on_new_state,
      TxPool.on_canonical_state_change]
    rw [hev]
  refine ⟨h1, ?_⟩
  rw [h1, List.drop_left]
  simp [List.all_append, List.all_map, Function.comp, FullTransactionEvent.isQueuedEvent,
    List.all_eq_true]

/-- Claim C3 counterexample: a canonical update that only empties the
sender's balance demotes the resident pending transaction with hash 7
into the Queued sub-pool, yet the update emits no event at all — in
particular no `queued` event for that transition. -/
theorem C3_counterexample :
    (PoolInner.on_canonical_state_change c3Pool c3Update).pool.subpool_of 7 =
        some SubPool.Queued ∧
      c3Pool.pool.subpool_of 7 = some SubPool.Pending ∧
      (PoolInner.on_canonical_state_change c3Pool c3Update).event_listener = [] := by
  decide


/-- Claim C4: when a transaction of a batch is first admitted
successfully (its per-transaction result is `Ok(hash)`) and the size
reconciliation that follows the batch evicts that hash, the result
returned for that position is `DiscardedOnInsert(hash)` instead of the
`Ok`. -/
theorem C4_discarded_on_insert (st : PoolInner) (origin : TransactionOrigin)
    (txs : List TransactionValidationOutcome) (i : Nat) (h : TxHash)
    (h1 : (PoolInner.add_each origin st txs).2.getD i
        (Except.error (PoolError.Other 0 "")) = Except.ok h)
    (h2 : (PoolInner.discard_worst (PoolInner.add_each origin st txs).1).2.contains h =
        true) :
    (PoolInner.add_transactions st origin txs).2.getD i
        (Except.error (PoolError.Other 0 "")) =
      Except.error (PoolError.DiscardedOnInsert h) := by
  have hany := any_isOk_of_getD_ok _ i h h1
  simp only [PoolInner.add_transactions, PoolInner.add_transactions_full, mkBatchResult,
    hany, if_true]
  cases hD : (PoolInner.discard_worst (PoolInner.add_each origin st txs).1).2 with
  | nil => rw [hD] at h2; simp at h2
  | cons a rest =>
      rw [hD] at h2
      simp only [hD]
      rw [getD_map_applyDiscard, h1]
      simp only [applyDiscard]
      rw [if_pos h2]

/-- Claim C4 witness: under a configuration whose Pending sub-pool admits
no transaction, a successfully admitted transaction is immediately
evicted and its result is rewritten to `DiscardedOnInsert`. -/
theorem C4_witness :
    (PoolInner.add_transactions tightPool TransactionOrigin.Local [c4Outcome]).2.getD 0
        (Except.error (PoolError.Other 0 "")) =
      Except.error (PoolError.DiscardedOnInsert 9) :=
  C4_discarded_on_insert tightPool TransactionOrigin.Local [c4Outcome] 0 9
    (by decide) (by decide)

/-- Claim C5: the size-limit eviction pass runs after a batch exactly
when some transaction of the batch was admitted successfully: an
all-rejected batch leaves the post-add state and results untouched and
its discarded-hash set is empty, while a batch with a success takes its
discarded-hash set from `PoolInner::discard_worst` on the post-add
state. -/
theorem C5_eviction_exactly_on_success (st : PoolInner) (origin : TransactionOrigin)
    (txs : List TransactionValidationOutcome) :
    ((PoolInner.add_each origin st txs).2.any isOkResult = false →
        PoolInner.add_transactions_full st origin txs =
          ((PoolInner.add_each origin st txs).1,
            (PoolInner.add_each origin st txs).2, [])) ∧
      ((PoolInner.add_each origin st txs).2.any isOkResult = true →
        (PoolInner.add_transactions_full st origin txs).2.2 =
          (PoolInner.discard_worst (PoolInner.add_each origin st txs).1).2) := by
  constructor
  · intro hnone
    simp [PoolInner.add_transactions_full, mkBatchResult, hnone]
  · intro hsome
    simp only [PoolInner.add_transactions_full, mkBatchResult, hsome, if_true]
    cases hD : (PoolInner.discard_worst (PoolInner.add_each origin st txs).1).2 with
    | nil => simp [hD]
    | cons a rest => simp [hD]

/-- Claim C5 witness: a batch whose only transaction is rejected by the
validator triggers no eviction: the state and results are exactly the
post-add ones and the discarded-hash set is empty. -/
theorem C5_witness :
    PoolInner.add_transactions_full emptyPool TransactionOrigin.Local [invalidOutcome] =
      ((PoolInner.add_each TransactionOrigin.Local emptyPool [invalidOutcome]).1,
        (PoolInner.add_each TransactionOrigin.Local emptyPool [invalidOutcome]).2, []) :=
  (C5_eviction_exactly_on_success emptyPool TransactionOrigin.Local [invalidOutcome]).1
    (by decide)


/-- Claim C6: the notification passes over the pending-hash and
new-transaction listener registries are the `filterMap` of a per-listener
try-send step, and that step keeps a listener whose channel is full
(dropping only the event) while it removes a listener whose channel is
closed; only `try_send` is ever used, so no send blocks. -/
theorem C6_backpressure_policy (st : PoolInner) (added : AddedTransaction)
    (event : NewTransactionEvent) (th : TxHash) (prop : Bool)
    (l : PendingTransactionListener) (c : BoundedChannel NewTransactionEvent) :
    ((PoolInner.on_new_pending_transaction st added).pending_transaction_listener =
        st.pending_transaction_listener.filterMap
          (stepPendingListener added.hash added.is_propagate_allowed)) ∧
      ((PoolInner.on_new_transaction st event).transaction_listener =
        st.transaction_listener.filterMap (stepTxListener event)) ∧
      (l.sender.closed = false → l.sender.capacity ≤ l.sender.buffer.length →
        stepPendingListener th prop l = some l) ∧
      (l.sender.closed = true → stepPendingListener th prop l = none) ∧
      (c.closed = false → c.capacity ≤ c.buffer.length →
        stepTxListener event c = some c) ∧
      (c.closed = true → stepTxListener event c = none) := by
  refine ⟨rfl, rfl, ?_, ?_, ?_, ?_⟩
  · intro h1 h2
    unfold stepPendingListener
    split
    · simp [BoundedChannel.is_closed, h1]
    · simp [BoundedChannel.try_send, h1, h2]
  · intro h1
    unfold stepPendingListener
    split
    · simp [BoundedChannel.is_closed, h1]
    · simp [BoundedChannel.try_send, h1]
  · intro h1 h2
    unfold stepTxListener
    simp [BoundedChannel.try_send, h1, h2]
  · intro h1
    unfold stepTxListener
    simp [BoundedChannel.try_send, h1]

/-- Claim C6 witness: a full open channel keeps its listener registered
with the event dropped; a closed channel removes its listener — on both
registries. -/
theorem C6_witness :
    stepPendingListener 5 true fullListener = some fullListener ∧
      stepPendingListener 5 true closedListener = none ∧
      stepTxListener someEvent fullEventChan = some fullEventChan ∧
      stepTxListener someEvent closedEventChan = none := by
  have h := C6_backpressure_policy emptyPool
    (AddedTransaction.Parked c3Vtx none SubPool.Queued) someEvent 5 true fullListener
    fullEventChan
  have h2 := C6_backpressure_policy emptyPool
    (AddedTransaction.Parked c3Vtx none SubPool.Queued) someEvent 5 true closedListener
    closedEventChan
  exact ⟨h.2.2.1 (by decide) (by decide), h2.2.2.2.1 (by decide),
    h.2.2.2.2.1 (by decide) (by decide), h2.2.2.2.2.2 (by decide)⟩

/-- Claim C7: a `PropagateOnly` pending-hash listener never receives the
hash of a transaction whose propagate flag is false — whenever the step
keeps it, its channel buffer is unchanged — while a listener of the
non-filtering kind with an open, non-full channel receives the hash of
every new pending transaction regardless of the propagate flag. -/
theorem C7_propagate_only_filtering (th : TxHash) (prop : Bool)
    (l l2 : PendingTransactionListener) :
    (l.kind = PendingTransactionListenerKind.PropagateOnly →
        stepPendingListener th false l = some l2 →
        l2.sender.buffer = l.sender.buffer) ∧
      (l.kind = PendingTransactionListenerKind.All → l.sender.closed = false →
        l.sender.buffer.length < l.sender.capacity →
        stepPendingListener th prop l =
          some ⟨⟨l.sender.buffer ++ [th], l.sender.capacity, l.sender.closed⟩,
            l.kind⟩) := by
  constructor
  · intro hk hstep
    unfold stepPendingListener at hstep
    rw [hk] at hstep
    simp only [PendingTransactionListenerKind.is_propagate_only, Bool.not_false,
      Bool.and_self, if_true] at hstep
    split at hstep
    · exact absurd hstep (by simp)
    · rw [← Option.some.inj hstep]
  · intro hk h1 h2
    unfold stepPendingListener
    rw [hk]
    simp [PendingTransactionListenerKind.is_propagate_only, BoundedChannel.try_send, h1,
      Nat.not_le.mpr h2]

/-- Claim C7 witness: a propagate-only listener skips a non-propagatable
hash with its buffer untouched, and a non-filtering listener with room
receives the hash into its buffer. -/
theorem C7_witness :
    propOnlyListener.sender.buffer = propOnlyListener.sender.buffer ∧
      stepPendingListener 5 true roomListener =
        some ⟨⟨roomListener.sender.buffer ++ [5], roomListener.sender.capacity,
          roomListener.sender.closed⟩, roomListener.kind⟩ :=
  ⟨(C7_propagate_only_filtering 5 true propOnlyListener propOnlyListener).1 (by decide)
      (by decide),
    (C7_propagate_only_filtering 5 true roomListener propOnlyListener).2 (by decide)
      (by decide) (by decide)⟩

/-- Claim C9: the facade's `Pool::add_transaction` returns exactly the
sole element of the result list of `Pool::add_transactions` on the
singleton batch, and leaves the pool in the same state — the two entry
points agree on singleton input. -/
theorem C9_single_add_equals_singleton_batch (validator : Validator) (st : PoolInner)
    (origin : TransactionOrigin) (t : Transaction) :
    (Pool.add_transactions validator st origin [t]).2 =
        [(Pool.add_transaction validator st origin t).2] ∧
      (Pool.add_transactions validator st origin [t]).1 =
        (Pool.add_transaction validator st origin t).1 := by
  obtain ⟨r, hr⟩ := List.length_eq_one.mp
    (add_transactions_length st origin [validator origin t])
  have h2 : (Pool.add_transaction validator st origin t).2 = r := by
    show (PoolInner.add_transactions st origin [validator origin t]).2.getLastD _ = r
    rw [hr]
    rfl
  have h1 : (Pool.add_transactions validator st origin [t]).2 =
      (PoolInner.add_transactions st origin [validator origin t]).2 := rfl
  refine ⟨?_, rfl⟩
  rw [h1, hr, h2]

/-- Claim C10: the pooled-transaction queries return exactly the resident
transactions whose propagate flag is true — every pooled hash belongs to
a propagate-true resident, a propagate-false resident is omitted yet
stays resident and retrievable by `get` — and
`pooled_transaction_hashes_max` returns the first `min(max, n)` elements
of that filtered sequence. -/
theorem C10_propagate_flag_visibility (st : PoolInner) (m : Nat)
    (tx : ValidPoolTransaction) (hres : tx ∈ st.pool.transactions_list) :
    (tx.propagate = true →
        tx.transaction.hash ∈ PoolInner.pooled_transactions_hashes st) ∧
      (∀ h2, h2 ∈ PoolInner.pooled_transactions_hashes st →
        ∃ u, u ∈ st.pool.transactions_list ∧ u.propagate = true ∧
          u.transaction.hash = h2) ∧
      (tx.propagate = false →
        ¬ tx ∈ PoolInner.pooled_transactions st ∧
          ((st.pool.all.map (fun p => p.1.transaction.hash)).Nodup →
            PoolInner.get st tx.transaction.hash = some tx)) ∧
      Pool.pooled_transaction_hashes_max st m =
        (PoolInner.pooled_transactions_hashes st).take m ∧
      (Pool.pooled_transaction_hashes_max st m).length =
        min m (PoolInner.pooled_transactions_hashes st).length := by
  refine ⟨?_, ?_, ?_, rfl, ?_⟩
  · intro hp
    simp only [PoolInner.pooled_transactions_hashes, List.mem_map]
    exact ⟨tx, List.mem_filter.mpr ⟨hres, hp⟩, rfl⟩
  · intro h2 hmem
    simp only [PoolInner.pooled_transactions_hashes, List.mem_map] at hmem
    rcases hmem with ⟨u, hu, rfl⟩
    have hu2 := List.mem_filter.mp hu
    exact ⟨u, hu2.1, hu2.2, rfl⟩
  · intro hp
    constructor
    · intro hin
      have hcontra := (List.mem_filter.mp hin).2
      rw [hp] at hcontra
      simp at hcontra
    · intro hnd
      exact find_by_hash_unique st.pool.all tx hnd hres
  · simp [Pool.pooled_transaction_hashes_max, List.length_take]

/-- Claim C10 witness: in a pool holding a propagate-true and a
propagate-false transaction, the propagate-false one is omitted from the
pooled transactions yet still retrievable by `get`. -/
theorem C10_witness :
    ¬ vtx12 ∈ PoolInner.pooled_transactions c10Pool ∧
      PoolInner.get c10Pool vtx12.transaction.hash = some vtx12 := by
  have h := (C10_propagate_flag_visibility c10Pool 1 vtx12 (by decide)).2.2.1 (by decide)
  exact ⟨h.1, h.2 (by decide)⟩

end Reth
